import Mathlib

/-!
Shallow embedding of the gogohandlers request/response pipeline
(package `gogohandlers`, file `handler.go`, current revision).

Conventions of the embedding:
* Go pointers that may be nil are modelled as `Option`.
* Go `(value, error)` pairs are modelled as plain products with `Option GoError`
  for the error component.
* Run-time panics (nil-pointer dereference, index out of range, explicit
  `panic(...)`) are modelled by the `Panics` outcome type.
* The `*slog.Logger` handle is a pure I/O logging sink with no influence on the
  data flow of any function modelled here; it is not modelled.  The `logger`
  argument of error-translator functions is dropped for the same reason.
* `encoding/json` and `github.com/gorilla/schema` are external collaborators;
  they are modelled at their boundary by the `JsonCodec` and `SchemaDecoder`
  parameter records.  The one behavioural fact of gorilla/schema that the
  pipeline depends on is embedded in `schemaDecode`: a freshly created decoder
  (`schema.NewDecoder()`) starts with `ignoreUnknownKeys = false`, and
  `Decode` returns an `UnknownKeyError` for an unrecognized source key unless
  `IgnoreUnknownKeys(true)` was called.
* `uuid.New().String()` is modelled by a `freshID` parameter.
-/

/-- Go error values reaching the pipeline: `MiddlewareProcessingError`
(the pipeline error type of `handler.go`, carrying `Message` and
`StatusCode`) and an opaque domain error carrying only its message. -/
inductive GoError where
  | middlewareProcessingError (message : String) (statusCode : Nat)
  | domainError (message : String)
deriving DecidableEq, Repr

/-- `err.Error()` for the errors of the model. -/
def GoError.errorMessage : GoError → String
  | .middlewareProcessingError m _ => m
  | .domainError m => m

/-- `errors.As(handlerErr, &mProcError)`: succeeds exactly on a
`MiddlewareProcessingError`, extracting its message and status code. -/
def GoError.asMiddlewareProcessingError : GoError → Option (String × Nat)
  | .middlewareProcessingError m s => some (m, s)
  | .domainError _ => none

/-- The message of the Go runtime panic raised by dereferencing a nil
pointer. -/
def nilDereferenceMessage : String :=
  "runtime error: invalid memory address or nil pointer dereference"

/-- The message of the Go runtime panic raised by indexing an empty slice. -/
def indexOutOfRangeMessage : String :=
  "runtime error: index out of range"

/-- Outcome of running a piece of Go code that may panic. -/
inductive Panics (α : Type) where
  | ok (val : α)
  | panicked (message : String)
deriving DecidableEq, Repr

/-- Lookup in an association-list model of a Go `map[string]α`. -/
def lookupAssoc {α : Type} : List (String × α) → String → Option α
  | [], _ => none
  | (k0, v0) :: rest, k => if k0 = k then some v0 else lookupAssoc rest k

/-- Assignment `m[k] = v` in an association-list model of a Go map:
replace the value when the key is present, append otherwise. -/
def setAssoc {α : Type} : List (String × α) → String → α → List (String × α)
  | [], k, v => [(k, v)]
  | (k0, v0) :: rest, k, v =>
      if k0 = k then (k, v) :: rest else (k0, v0) :: setAssoc rest k v

/-- The parts of `*http.Request` the pipeline reads: whether `Body` differs
from `http.NoBody`, the raw body bytes, `URL.Query()`, `Header`, and the
context value stored under the request-id context key. -/
structure HttpRequest where
  hasBody : Bool
  body : String
  query : List (String × List String)
  headers : List (String × List String)
  contextRequestID : Option String
deriving DecidableEq, Repr

/-- `GGRequest[TServiceProvider, TReqBody, TGetParams]` of `handler.go`
(the `Logger` field is an I/O handle, not modelled). -/
structure GGRequest (σ β γ : Type) where
  serviceProvider : Option σ
  requestData : Option β
  getParams : Option γ
  request : HttpRequest

/-- `GGResponse[TRespBody, TErrorData]` of `handler.go`.  The `Headers` map
may be the nil map (`none`) or a (possibly empty) map (`some`). -/
structure GGResponse (ρ ε : Type) where
  responseData : Option ρ
  errorOccured : Bool
  errorData : Option ε
  statusCode : Nat
  headers : Option (List (String × List String))
  serializedResponse : String
deriving DecidableEq, Repr

/-- The zero value `&GGResponse[TRespBody, TErrorData]\x7b\x7d`. -/
def emptyGGResponse {ρ ε : Type} : GGResponse ρ ε :=
  { responseData := none
    errorOccured := false
    errorData := none
    statusCode := 0
    headers := none
    serializedResponse := "" }

/-- A handler function
`func(*GGRequest[...]) (*GGResponse[...], error)`; the result is a possibly
nil response pointer together with a possibly nil error, and running the
function may panic. -/
def Handler (σ β γ ρ ε : Type) : Type :=
  GGRequest σ β γ → Panics (Option (GGResponse ρ ε) × Option GoError)

/-- A middleware: a handler-to-handler transformation. -/
def Middleware (σ β γ ρ ε : Type) : Type :=
  Handler σ β γ ρ ε → Handler σ β γ ρ ε

/-- `DataProcessingMiddlewareSettings` of `handler.go`. -/
structure DataProcessingMiddlewareSettings where
  forbidUnknownKeysInGetParams : Bool
deriving DecidableEq, Repr

/-- Boundary model of `encoding/json` for the declared body, response and
error-payload types: the zero value of the body type, body decoding, and
marshalling of the (possibly nil) response and error payload pointers. -/
structure JsonCodec (β ρ ε : Type) where
  zeroReqBody : β
  decodeBody : String → Except String β
  marshalResp : Option ρ → Except String String
  marshalErr : Option ε → Except String String

/-- Boundary model of a gorilla/schema decoder for the declared query type:
which source keys correspond to a struct field, and the result of decoding a
query whose keys are all recognized. -/
structure SchemaDecoder (γ : Type) where
  knownKey : String → Bool
  decodeKnown : List (String × List String) → Except String γ

/-- The error message gorilla/schema produces for an unrecognized key
(the exact `MultiError` text is abstracted to a constant). -/
def unknownKeyErrorMessage : String := "schema: invalid path"

/-- `Decoder.Decode(&getParams, query)` of gorilla/schema: when
`ignoreUnknownKeys` is false (the state of a fresh `schema.NewDecoder()`),
any unrecognized key yields an error; when it is true, unrecognized keys are
skipped and the recognized ones are decoded. -/
def schemaDecode {γ : Type} (d : SchemaDecoder γ) (ignoreUnknownKeys : Bool)
    (query : List (String × List String)) : Except String γ :=
  if query.any (fun p => !d.knownKey p.1) && !ignoreUnknownKeys then
    .error unknownKeyErrorMessage
  else
    d.decodeKnown (query.filter (fun p => d.knownKey p.1))

/-- The unknown-key policy of the schema decoder built by
`GetDataProcessingMiddleware`: a fresh decoder ignores nothing; when a
settings object is supplied, `IgnoreUnknownKeys(!settings.ForbidUnknownKeysInGetParams)`
is called. -/
def effectiveIgnoreUnknownKeys (settings : Option DataProcessingMiddlewareSettings) : Bool :=
  match settings with
  | none => false
  | some s => !s.forbidUnknownKeysInGetParams

/-- The translator loop of `GetErrorHandlingMiddleware`: starting from the
accumulator `(statusCode, errorData)`, run each translator in order on the
error, keeping its result and stopping at the first non-zero status code. -/
def errorHandlersLoop {ε : Type} (e : GoError) (acc : Nat × Option ε) :
    List (GoError → Nat × Option ε) → Nat × Option ε
  | [] => acc
  | f :: rest =>
      let r := f e
      if r.1 ≠ 0 then r else errorHandlersLoop e r rest

/-- `GetErrorHandlingMiddleware(errorHandlers...)` of `handler.go`: on an
inner error, run the translator loop with initial state
`(http.StatusOK, nil)`; if the final status is 0 return the inner result
unchanged, otherwise mark the envelope (`ErrorData`, `StatusCode`,
`ErrorOccured`) and return a nil error.  Field assignment on a nil envelope
pointer panics. -/
def getErrorHandlingMiddleware {σ β γ ρ ε : Type}
    (errorHandlers : List (GoError → Nat × Option ε)) : Middleware σ β γ ρ ε :=
  fun hFunc ggreq =>
    match hFunc ggreq with
    | .panicked m => .panicked m
    | .ok (ggresp, none) => .ok (ggresp, none)
    | .ok (ggresp, some err) =>
        let r := errorHandlersLoop err (200, none) errorHandlers
        if r.1 = 0 then
          .ok (ggresp, some err)
        else
          match ggresp with
          | none => .panicked nilDereferenceMessage
          | some resp =>
              .ok (some { resp with
                            errorData := r.2
                            statusCode := r.1
                            errorOccured := true }, none)

/-- `GetDataProcessingMiddleware(settings)` of `handler.go`: decode the body
when one is present (decode failure: nil envelope plus a 400 pipeline
error), decode the query string with a fresh schema decoder (configured by
`settings` when non-nil; decode failure: empty envelope plus a 400 pipeline
error), call the inner handler, replace its envelope by an empty one when it
errors, otherwise serialize the payload selected by `ErrorOccured`
(serialization failure: the envelope plus a 400 pipeline error) and set the
`content-type` header.  Reading `ErrorOccured` of a nil envelope panics. -/
def getDataProcessingMiddleware {σ β γ ρ ε : Type}
    (settings : Option DataProcessingMiddlewareSettings)
    (codec : JsonCodec β ρ ε) (d : SchemaDecoder γ) : Middleware σ β γ ρ ε :=
  fun hFunc ggreq =>
    let decodedBody : Except String β :=
      if ggreq.request.hasBody then codec.decodeBody ggreq.request.body
      else .ok codec.zeroReqBody
    match decodedBody with
    | .error msg => .ok (none, some (.middlewareProcessingError msg 400))
    | .ok reqBody =>
        match schemaDecode d (effectiveIgnoreUnknownKeys settings) ggreq.request.query with
        | .error msg =>
            .ok (some emptyGGResponse, some (.middlewareProcessingError msg 400))
        | .ok getParams =>
            let ggreq1 := { ggreq with
                              requestData := some reqBody
                              getParams := some getParams }
            match hFunc ggreq1 with
            | .panicked m => .panicked m
            | .ok (_, some err) => .ok (some emptyGGResponse, some err)
            | .ok (none, none) => .panicked nilDereferenceMessage
            | .ok (some resp, none) =>
                let serialized : Except String String :=
                  if !resp.errorOccured then codec.marshalResp resp.responseData
                  else codec.marshalErr resp.errorData
                match serialized with
                | .error msg =>
                    .ok (some resp, some (.middlewareProcessingError msg 400))
                | .ok body =>
                    .ok (some { resp with
                                  serializedResponse := body
                                  headers := some (setAssoc (resp.headers.getD [])
                                    "content-type" ["application/json"]) }, none)

/-- Replacing the request by `r.WithContext(context.WithValue(..., requestID))`. -/
def withRequestID {σ β γ : Type} (ggreq : GGRequest σ β γ) (rid : String) :
    GGRequest σ β γ :=
  { ggreq with request := { ggreq.request with contextRequestID := some rid } }

/-- `RequestIDMiddleware` of `handler.go`: take the first value of the
incoming `X-Request-Id` header when the key is present (indexing an empty
value slice panics), otherwise a fresh uuid (`freshID`); attach it to the
request context, call the inner handler, and store it under `X-Request-Id`
in the envelope headers.  Reading the headers of a nil envelope panics. -/
def requestIDMiddleware {σ β γ ρ ε : Type} (freshID : String) :
    Middleware σ β γ ρ ε :=
  fun hFunc ggreq =>
    let requestIDOutcome : Panics String :=
      match lookupAssoc ggreq.request.headers "X-Request-Id" with
      | some [] => .panicked indexOutOfRangeMessage
      | some (v :: _) => .ok v
      | none => .ok freshID
    match requestIDOutcome with
    | .panicked m => .panicked m
    | .ok requestID =>
        match hFunc (withRequestID ggreq requestID) with
        | .panicked m => .panicked m
        | .ok (none, _) => .panicked nilDereferenceMessage
        | .ok (some resp, err) =>
            .ok (some { resp with
                          headers := some (setAssoc (resp.headers.getD [])
                            "X-Request-Id" [requestID]) }, err)

/-- The `Uitzicht` pipeline type of `handler.go` (its `Logger` field is an
I/O handle, not modelled). -/
structure Uitzicht (σ β γ ρ ε : Type) where
  serviceProvider : Option σ
  handlerFunc : Handler σ β γ ρ ε
  middlewares : List (Middleware σ β γ ρ ε)

/-- The composition loop of `ServeHTTP`:
`for _, mw := range u.Middlewares { theHandler = mw(theHandler) }`. -/
def composeMiddlewares {σ β γ ρ ε : Type} (mws : List (Middleware σ β γ ρ ε))
    (core : Handler σ β γ ρ ε) : Handler σ β γ ρ ε :=
  mws.foldl (fun theHandler mw => mw theHandler) core

/-- Observable actions `ServeHTTP` performs on the `http.ResponseWriter`:
`w.Header().Set(name, value)`, `w.WriteHeader(statusCode)`, and
`w.Write(body)`. -/
inductive WriteEvent where
  | setHeader (name value : String)
  | writeHeader (statusCode : Nat)
  | writeBody (body : String)
deriving DecidableEq, Repr

/-- The header loop of `ServeHTTP`: for each name of the envelope header
map, one `Set` event per value, in the order of the value slice. -/
def headerWriteEvents (hs : List (String × List String)) : List WriteEvent :=
  hs.flatMap (fun p => p.2.map (fun v => WriteEvent.setHeader p.1 v))

/-- `ServeHTTP` of `handler.go` (current revision): build a fresh request
context, wrap the core handler with the middleware list in registration
order, run it; on a non-nil error use the status and message of a
`MiddlewareProcessingError` (panicking on any other error); otherwise read
the status from the envelope (500 when `ErrorOccured` with status 0, the
envelope status when `ErrorOccured`, 200 otherwise) and the body from
`serializedResponse`; then iterate the envelope header map (a nil envelope
pointer panics here), write the status line and write the body. -/
def serveHTTP {σ β γ ρ ε : Type} (u : Uitzicht σ β γ ρ ε) (r : HttpRequest) :
    Panics (List WriteEvent) :=
  let ggreq : GGRequest σ β γ :=
    { serviceProvider := u.serviceProvider
      requestData := none
      getParams := none
      request := r }
  match composeMiddlewares u.middlewares u.handlerFunc ggreq with
  | .panicked m => .panicked m
  | .ok (ggresp, handlerErr) =>
      let statusAndBody : Panics (Nat × String) :=
        match handlerErr with
        | some e =>
            match e.asMiddlewareProcessingError with
            | some (msg, code) => .ok (code, msg)
            | none => .panicked e.errorMessage
        | none =>
            match ggresp with
            | none => .panicked nilDereferenceMessage
            | some resp =>
                let statusCode :=
                  if resp.errorOccured then
                    if resp.statusCode = 0 then 500 else resp.statusCode
                  else 200
                .ok (statusCode, resp.serializedResponse)
      match statusAndBody with
      | .panicked m => .panicked m
      | .ok (statusCode, responseData) =>
          match ggresp with
          | none => .panicked nilDereferenceMessage
          | some resp =>
              .ok (headerWriteEvents (resp.headers.getD []) ++
                [WriteEvent.writeHeader statusCode,
                 WriteEvent.writeBody responseData])

/-- The effect of one write event on the response writer header map
(`Set` replaces the whole value of the name). -/
def applySetEvent (m : List (String × String)) : WriteEvent → List (String × String)
  | .setHeader n v => setAssoc m n v
  | _ => m

/-- The response writer header map after a list of write events. -/
def finalHeaders (evs : List WriteEvent) : List (String × String) :=
  evs.foldl applySetEvent []

/-- The status code a single write event carries, when any. -/
def statusOfEvent : WriteEvent → Option Nat
  | .writeHeader s => some s
  | _ => none

/-- The status code written by a run of the dispatcher, when any. -/
def writtenStatus (out : Panics (List WriteEvent)) : Option Nat :=
  match out with
  | .panicked _ => none
  | .ok evs => evs.findSome? statusOfEvent

/-- A request with no body, no query, no headers: a plain `GET` request. -/
def sampleRequest : HttpRequest :=
  { hasBody := false, body := "", query := [], headers := [], contextRequestID := none }

/-- A fresh request context over `sampleRequest`, as the dispatcher builds it. -/
def sampleGGRequest : GGRequest Unit Unit Unit :=
  { serviceProvider := none, requestData := none, getParams := none,
    request := sampleRequest }

/-- A core handler that returns a fixed non-nil envelope and a nil error. -/
def constHandler {σ β γ ρ ε : Type} (resp : GGResponse ρ ε) : Handler σ β γ ρ ε :=
  fun _ => .ok (some resp, none)

/-- A pipeline with a core handler and no middlewares. -/
def soloUitzicht {σ β γ ρ ε : Type} (sp : Option σ) (core : Handler σ β γ ρ ε) :
    Uitzicht σ β γ ρ ε :=
  { serviceProvider := sp, handlerFunc := core, middlewares := [] }

/-- A concrete json-codec boundary: body decoding always fails with message
`"invalid body"`, payload marshalling always succeeds (the payload string
itself, or `"null"` for a nil pointer, mirroring `json.Marshal(nil)`). -/
def pingCodec : JsonCodec Unit String String :=
  { zeroReqBody := ()
    decodeBody := fun _ => Except.error "invalid body"
    marshalResp := fun o =>
      match o with
      | some s => Except.ok s
      | none => Except.ok "null"
    marshalErr := fun o =>
      match o with
      | some s => Except.ok s
      | none => Except.ok "null" }

/-- A concrete schema-decoder boundary recognizing every key. -/
def allKnownDecoder : SchemaDecoder Unit :=
  { knownKey := fun _ => true, decodeKnown := fun _ => Except.ok () }

/-- A concrete schema-decoder boundary recognizing only the key `"msg"`. -/
def msgOnlyDecoder : SchemaDecoder Unit :=
  { knownKey := fun k => k == "msg", decodeKnown := fun _ => Except.ok () }

/-- A successful envelope carrying the payload `"pong"`. -/
def pongResponse : GGResponse String String :=
  { responseData := some "pong"
    errorOccured := false
    errorData := none
    statusCode := 0
    headers := none
    serializedResponse := "" }

/-- A request carrying a body that is not valid JSON. -/
def badBodyRequest : HttpRequest :=
  { hasBody := true, body := "not-json", query := [], headers := [],
    contextRequestID := none }

/-- A fresh request context over `badBodyRequest`. -/
def badBodyGGRequest : GGRequest Unit Unit Unit :=
  { serviceProvider := none, requestData := none, getParams := none,
    request := badBodyRequest }

/-- A request whose query string carries only the unrecognized key `"bogus"`. -/
def unknownKeyRequest : HttpRequest :=
  { hasBody := false, body := "", query := [("bogus", ["1"])], headers := [],
    contextRequestID := none }

/-- A fresh request context over `unknownKeyRequest`. -/
def unknownKeyGGRequest : GGRequest Unit Unit Unit :=
  { serviceProvider := none, requestData := none, getParams := none,
    request := unknownKeyRequest }

/-- A request carrying an incoming correlation header `X-Request-Id: abc`. -/
def ridRequest : HttpRequest :=
  { hasBody := false, body := "", query := [],
    headers := [("X-Request-Id", ["abc"])], contextRequestID := none }

/-- A fresh request context over `ridRequest`. -/
def ridGGRequest : GGRequest Unit Unit Unit :=
  { serviceProvider := none, requestData := none, getParams := none,
    request := ridRequest }

/-- An envelope holding two values under one header name. -/
def dupHeaderResponse : GGResponse String String :=
  { responseData := none
    errorOccured := false
    errorData := none
    statusCode := 0
    headers := some [("Accept", ["v1", "v2"])]
    serializedResponse := "b" }

/-! ### Lemmas about the translator loop and association-list maps -/

lemma errorHandlersLoop_first_match {ε : Type} (e : GoError)
    (f : GoError → Nat × Option ε) (suf : List (GoError → Nat × Option ε))
    (hf : (f e).1 ≠ 0) :
    ∀ (pre : List (GoError → Nat × Option ε)) (acc : Nat × Option ε),
      (∀ g ∈ pre, (g e).1 = 0) →
      errorHandlersLoop e acc (pre ++ f :: suf) = f e := by
  intro pre
  induction pre with
  | nil =>
      intro acc _
      simp [errorHandlersLoop, hf]
  | cons g rest ih =>
      intro acc hall
      have hg : (g e).1 = 0 := hall g (List.mem_cons_self g rest)
      have hrest : ∀ x ∈ rest, (x e).1 = 0 :=
        fun x hx => hall x (List.mem_cons_of_mem g hx)
      simp only [List.cons_append, errorHandlersLoop, hg]
      simpa using ih (g e) hrest

lemma errorHandlersLoop_all_decline {ε : Type} (e : GoError) :
    ∀ (hs : List (GoError → Nat × Option ε)) (acc : Nat × Option ε),
      hs ≠ [] → (∀ g ∈ hs, (g e).1 = 0) →
      (errorHandlersLoop e acc hs).1 = 0 := by
  intro hs
  induction hs with
  | nil => intro acc h _; exact absurd rfl h
  | cons g rest ih =>
      intro acc _ hall
      have hg : (g e).1 = 0 := hall g (List.mem_cons_self g rest)
      have hrest : ∀ x ∈ rest, (x e).1 = 0 :=
        fun x hx => hall x (List.mem_cons_of_mem g hx)
      cases rest with
      | nil => simp [errorHandlersLoop, hg]
      | cons h t =>
          simp only [errorHandlersLoop, hg]
          simpa [errorHandlersLoop] using ih (g e) (List.cons_ne_nil h t) hrest

/-! ### C2 and C3: the error-handling middleware -/

/-- C2: for every non-empty translator list and every error returned by the
inner handler, the error-handling middleware tries the translators in
registration order, adopts the result of the first one returning a non-zero
status code (any prefix of declining translators is skipped over, and the
translators registered after the match are irrelevant to the result), sets
the envelope fields `errorOccured`, `errorData` and `statusCode` from that
result, and returns a nil error. -/
theorem errorHandlingMiddleware_first_match {σ β γ ρ ε : Type}
    (pre suf : List (GoError → Nat × Option ε)) (f : GoError → Nat × Option ε)
    (e : GoError) (resp : GGResponse ρ ε) (hFunc : Handler σ β γ ρ ε)
    (ggreq : GGRequest σ β γ)
    (hpre : ∀ g ∈ pre, (g e).1 = 0) (hf : (f e).1 ≠ 0)
    (hinner : hFunc ggreq = .ok (some resp, some e)) :
    getErrorHandlingMiddleware (pre ++ f :: suf) hFunc ggreq =
      .ok (some { resp with
                    errorData := (f e).2
                    statusCode := (f e).1
                    errorOccured := true }, none) := by
  have hloop := errorHandlersLoop_first_match e f suf hf pre (200, none) hpre
  simp [getErrorHandlingMiddleware, hinner, hloop, hf]

/-- Witness for C2: translator 0 declines, translator 1 maps the domain
error to status 418, translator 2 (registered later) would map it to 500;
the middleware adopts translator 1 and clears the error. -/
theorem errorHandlingMiddleware_first_match_witness :
    (∀ g ∈ ([fun _ => (0, none)] : List (GoError → Nat × Option String)),
        (g (.domainError "boom")).1 = 0) ∧
    ((fun _ => (418, some "teapot") : GoError → Nat × Option String)
        (.domainError "boom")).1 ≠ 0 ∧
    getErrorHandlingMiddleware
        ([fun _ => (0, none)] ++
          (fun _ => (418, some "teapot")) :: [fun _ => (500, some "later")])
        (fun _ => .ok (some emptyGGResponse, some (.domainError "boom")) :
          Handler Unit Unit Unit String String)
        sampleGGRequest =
      .ok (some (⟨none, true, some "teapot", 418, none, ""⟩ :
                   GGResponse String String), none) := by
  refine ⟨by decide, by decide, ?_⟩
  exact errorHandlingMiddleware_first_match
    [fun _ => (0, none)] [fun _ => (500, some "later")]
    (fun _ => (418, some "teapot")) (.domainError "boom") emptyGGResponse
    (fun _ => .ok (some emptyGGResponse, some (.domainError "boom")))
    sampleGGRequest (by decide) (by decide) rfl

/-- C3 counterexample: with an EMPTY translator list the middleware does not
return the envelope and error unmodified; the loop state stays at its
initial value `(http.StatusOK, nil)`, so the middleware marks the envelope
as an error with status 200 and nil error data and swallows the error. -/
theorem errorHandlingMiddleware_empty_list_counterexample :
    getErrorHandlingMiddleware []
        (fun _ => .ok (some emptyGGResponse, some (.domainError "boom")) :
          Handler Unit Unit Unit String String)
        sampleGGRequest =
      .ok (some { emptyGGResponse with statusCode := 200, errorOccured := true },
           none) ∧
    getErrorHandlingMiddleware []
        (fun _ => .ok (some emptyGGResponse, some (.domainError "boom")) :
          Handler Unit Unit Unit String String)
        sampleGGRequest ≠
      .ok (some emptyGGResponse, some (.domainError "boom")) := by
  constructor
  · rfl
  · decide

/-- C3 (amended): for every error returned by the inner handler, if the
translator list is NON-EMPTY and every translator returns status 0, the
middleware returns the envelope (even a nil one) and the original error
unmodified. -/
theorem errorHandlingMiddleware_all_decline {σ β γ ρ ε : Type}
    (hs : List (GoError → Nat × Option ε)) (e : GoError)
    (ggresp : Option (GGResponse ρ ε)) (hFunc : Handler σ β γ ρ ε)
    (ggreq : GGRequest σ β γ)
    (hne : hs ≠ []) (hall : ∀ g ∈ hs, (g e).1 = 0)
    (hinner : hFunc ggreq = .ok (ggresp, some e)) :
    getErrorHandlingMiddleware hs hFunc ggreq = .ok (ggresp, some e) := by
  have hloop := errorHandlersLoop_all_decline e hs (200, none) hne hall
  simp [getErrorHandlingMiddleware, hinner, hloop]

/-- Witness for C3 (amended): a one-element translator list whose only
translator declines; the envelope and the original error come back
unmodified. -/
theorem errorHandlingMiddleware_all_decline_witness :
    ([fun _ => (0, some "ignored")] : List (GoError → Nat × Option String)) ≠ [] ∧
    (∀ g ∈ ([fun _ => (0, some "ignored")] : List (GoError → Nat × Option String)),
        (g (.domainError "boom")).1 = 0) ∧
    getErrorHandlingMiddleware [fun _ => (0, some "ignored")]
        (fun _ => .ok (some emptyGGResponse, some (.domainError "boom")) :
          Handler Unit Unit Unit String String)
        sampleGGRequest =
      .ok (some emptyGGResponse, some (.domainError "boom")) := by
  refine ⟨List.cons_ne_nil _ _, by decide, ?_⟩
  exact errorHandlingMiddleware_all_decline [fun _ => (0, some "ignored")]
    (.domainError "boom") (some emptyGGResponse)
    (fun _ => .ok (some emptyGGResponse, some (.domainError "boom")))
    sampleGGRequest (List.cons_ne_nil _ _) (by decide) rfl

/-! ### C4: the status code the dispatcher writes -/

lemma statusOfEvent_headerWriteEvents (hs : List (String × List String)) :
    ∀ ev ∈ headerWriteEvents hs, statusOfEvent ev = none := by
  intro ev hev
  simp only [headerWriteEvents, List.mem_flatMap, List.mem_map] at hev
  obtain ⟨p, _, v, _, rfl⟩ := hev
  rfl

lemma findSome?_append_none {α ω : Type} (f : α → Option ω) (l2 : List α) :
    ∀ l1 : List α, (∀ x ∈ l1, f x = none) →
      (l1 ++ l2).findSome? f = l2.findSome? f := by
  intro l1
  induction l1 with
  | nil => intro _; simp
  | cons a t ih =>
      intro h
      have ha : f a = none := h a (List.mem_cons_self a t)
      simp only [List.cons_append, List.findSome?, ha]
      exact ih (fun x hx => h x (List.mem_cons_of_mem a hx))

lemma writtenStatus_trace (hs : List (String × List String)) (s : Nat) (b : String) :
    writtenStatus (.ok (headerWriteEvents hs ++
        [WriteEvent.writeHeader s, WriteEvent.writeBody b])) = some s := by
  simp only [writtenStatus]
  rw [findSome?_append_none statusOfEvent _ _ (statusOfEvent_headerWriteEvents hs)]
  rfl

/-- C4 (amended): for every envelope handed back to the dispatcher with a
nil error: an errored envelope with status 0 is written as 500, an errored
envelope with a non-zero status is written with that status, and a
non-errored envelope is ALWAYS written as 200 — the envelope status code is
ignored on the success path. -/
theorem serveHTTP_statusCode_rules {σ β γ ρ ε : Type} (sp : Option σ)
    (resp : GGResponse ρ ε) (r : HttpRequest) :
    (resp.errorOccured = true → resp.statusCode = 0 →
      writtenStatus (serveHTTP (soloUitzicht sp
        (constHandler resp : Handler σ β γ ρ ε)) r) = some 500) ∧
    (resp.errorOccured = true → resp.statusCode ≠ 0 →
      writtenStatus (serveHTTP (soloUitzicht sp
        (constHandler resp : Handler σ β γ ρ ε)) r) = some resp.statusCode) ∧
    (resp.errorOccured = false →
      writtenStatus (serveHTTP (soloUitzicht sp
        (constHandler resp : Handler σ β γ ρ ε)) r) = some 200) := by
  have htrace : serveHTTP (soloUitzicht sp (constHandler resp : Handler σ β γ ρ ε)) r =
      .ok (headerWriteEvents (resp.headers.getD []) ++
        [WriteEvent.writeHeader
          (if resp.errorOccured then
            (if resp.statusCode = 0 then 500 else resp.statusCode) else 200),
         WriteEvent.writeBody resp.serializedResponse]) := rfl
  refine ⟨?_, ?_, ?_⟩
  · intro h1 h2
    rw [htrace, writtenStatus_trace]
    simp [h1, h2]
  · intro h1 h2
    rw [htrace, writtenStatus_trace]
    simp [h1, h2]
  · intro h1
    rw [htrace, writtenStatus_trace]
    simp [h1]

/-- Witness for C4 (amended): errored status-0 envelope gives 500, errored
status-418 envelope gives 418, successful envelope with caller status 201
still gives 200. -/
theorem serveHTTP_statusCode_rules_witness :
    writtenStatus (serveHTTP (soloUitzicht none
      (constHandler (⟨none, true, none, 0, none, ""⟩ : GGResponse String String) :
        Handler Unit Unit Unit String String)) sampleRequest) = some 500 ∧
    writtenStatus (serveHTTP (soloUitzicht none
      (constHandler (⟨none, true, none, 418, none, ""⟩ : GGResponse String String) :
        Handler Unit Unit Unit String String)) sampleRequest) = some 418 ∧
    writtenStatus (serveHTTP (soloUitzicht none
      (constHandler (⟨none, false, none, 201, none, ""⟩ : GGResponse String String) :
        Handler Unit Unit Unit String String)) sampleRequest) = some 200 := by
  refine ⟨?_, ?_, ?_⟩
  · exact (serveHTTP_statusCode_rules none ⟨none, true, none, 0, none, ""⟩
      sampleRequest).1 rfl rfl
  · exact (serveHTTP_statusCode_rules none ⟨none, true, none, 418, none, ""⟩
      sampleRequest).2.1 rfl (by decide)
  · exact (serveHTTP_statusCode_rules none ⟨none, false, none, 201, none, ""⟩
      sampleRequest).2.2 rfl

/-- C4 counterexample: a successful envelope carrying the caller-supplied
status code 201 is written with status 200; the envelope status is ignored
on the success path, contradicting the claim that a caller-supplied
non-zero status is used. -/
theorem serveHTTP_success_status_counterexample :
    serveHTTP (soloUitzicht none
        (constHandler (⟨none, false, none, 201, none, "ok"⟩ : GGResponse String String) :
          Handler Unit Unit Unit String String)) sampleRequest =
      .ok [WriteEvent.writeHeader 200, WriteEvent.writeBody "ok"] ∧
    writtenStatus (serveHTTP (soloUitzicht none
        (constHandler (⟨none, false, none, 201, none, "ok"⟩ : GGResponse String String) :
          Handler Unit Unit Unit String String)) sampleRequest) ≠ some 201 := by
  exact ⟨rfl, by decide⟩

/-! ### C9: deterministic composition order of the middleware chain -/

/-- C9: the dispatcher composes the registered middleware list around the
core handler by a single left fold, so the wrap order is fixed and
deterministic: the middleware at list position `|pre|` (0-based) is nested
exactly `|pre|` layers outside the core handler, later-registered
middlewares always ending up further outside, for every list and
independently of the request; and running the dispatcher equals running the
pre-composed handler with an empty middleware list on every request. -/
theorem composeMiddlewares_wrap_order {σ β γ ρ ε : Type}
    (pre suf : List (Middleware σ β γ ρ ε)) (m : Middleware σ β γ ρ ε)
    (mws : List (Middleware σ β γ ρ ε)) (core : Handler σ β γ ρ ε)
    (sp : Option σ) (r : HttpRequest) :
    composeMiddlewares [] core = core ∧
    composeMiddlewares (pre ++ m :: suf) core =
      composeMiddlewares suf (m (composeMiddlewares pre core)) ∧
    serveHTTP ({ serviceProvider := sp, handlerFunc := core, middlewares := mws } :
        Uitzicht σ β γ ρ ε) r =
      serveHTTP (soloUitzicht sp (composeMiddlewares mws core)) r := by
  refine ⟨rfl, ?_, rfl⟩
  simp [composeMiddlewares, List.foldl_append]

/-! ### C5: outbound serialization of the data-processing middleware -/

/-- C5: for every envelope returned by the inner handler without error, the
data-processing middleware serializes exactly the payload selected by the
`errorOccured` flag (success payload iff false, error payload iff true);
the unselected payload's marshaller is never consulted (the result is
invariant under replacing it); and any serialization failure yields a
pipeline error with status 400 attached to the envelope. -/
theorem dataProcessingMiddleware_serializes_selected {σ β γ ρ ε : Type}
    (settings : Option DataProcessingMiddlewareSettings) (codec : JsonCodec β ρ ε)
    (d : SchemaDecoder γ) (hFunc : Handler σ β γ ρ ε) (ggreq : GGRequest σ β γ)
    (rb : β) (gp : γ) (resp : GGResponse ρ ε)
    (hdec : (if ggreq.request.hasBody = true then codec.decodeBody ggreq.request.body
             else Except.ok codec.zeroReqBody) = Except.ok rb)
    (hq : schemaDecode d (effectiveIgnoreUnknownKeys settings) ggreq.request.query =
          Except.ok gp)
    (hinner : hFunc { ggreq with requestData := some rb, getParams := some gp } =
              .ok (some resp, none)) :
    (getDataProcessingMiddleware settings codec d hFunc ggreq =
      match (if resp.errorOccured = false then codec.marshalResp resp.responseData
             else codec.marshalErr resp.errorData) with
      | .error msg => .ok (some resp, some (.middlewareProcessingError msg 400))
      | .ok body =>
          .ok (some { resp with
                        serializedResponse := body
                        headers := some (setAssoc (resp.headers.getD [])
                          "content-type" ["application/json"]) }, none)) ∧
    (resp.errorOccured = false → ∀ me : Option ε → Except String String,
      getDataProcessingMiddleware settings { codec with marshalErr := me } d hFunc ggreq =
        getDataProcessingMiddleware settings codec d hFunc ggreq) ∧
    (resp.errorOccured = true → ∀ mr : Option ρ → Except String String,
      getDataProcessingMiddleware settings { codec with marshalResp := mr } d hFunc ggreq =
        getDataProcessingMiddleware settings codec d hFunc ggreq) := by
  have key : ∀ c : JsonCodec β ρ ε, c.decodeBody = codec.decodeBody →
      c.zeroReqBody = codec.zeroReqBody →
      getDataProcessingMiddleware settings c d hFunc ggreq =
        match (if resp.errorOccured = false then c.marshalResp resp.responseData
               else c.marshalErr resp.errorData) with
        | .error msg => .ok (some resp, some (.middlewareProcessingError msg 400))
        | .ok body =>
            .ok (some { resp with
                          serializedResponse := body
                          headers := some (setAssoc (resp.headers.getD [])
                            "content-type" ["application/json"]) }, none) := by
    intro c hdb hz
    have hdec2 : (if ggreq.request.hasBody = true then c.decodeBody ggreq.request.body
                  else Except.ok c.zeroReqBody) = Except.ok rb := by
      rw [hdb, hz]; exact hdec
    simp only [getDataProcessingMiddleware, hdec2, hq, hinner]
    cases hfl : resp.errorOccured with
    | false => simp [hfl]
    | true => simp [hfl]
  refine ⟨key codec rfl rfl, ?_, ?_⟩
  · intro hfl me
    rw [key { codec with marshalErr := me } rfl rfl, key codec rfl rfl, hfl]
    simp
  · intro hfl mr
    rw [key { codec with marshalResp := mr } rfl rfl, key codec rfl rfl, hfl]
    simp

/-- Witness for C5: a bodyless request, a successful `"pong"` envelope; the
middleware serializes the success payload and sets the content-type
header. -/
theorem dataProcessingMiddleware_serializes_selected_witness :
    ((if sampleGGRequest.request.hasBody = true
      then pingCodec.decodeBody sampleGGRequest.request.body
      else Except.ok pingCodec.zeroReqBody) = Except.ok ()) ∧
    (schemaDecode allKnownDecoder (effectiveIgnoreUnknownKeys none)
      sampleGGRequest.request.query = Except.ok ()) ∧
    ((constHandler pongResponse : Handler Unit Unit Unit String String)
        { sampleGGRequest with requestData := some (), getParams := some () } =
      .ok (some pongResponse, none)) ∧
    getDataProcessingMiddleware none pingCodec allKnownDecoder
        (constHandler pongResponse : Handler Unit Unit Unit String String)
        sampleGGRequest =
      .ok (some { pongResponse with
                    serializedResponse := "pong"
                    headers := some [("content-type", ["application/json"])] },
           none) := by
  refine ⟨rfl, rfl, rfl, ?_⟩
  exact (dataProcessingMiddleware_serializes_selected none pingCodec allKnownDecoder
    (constHandler pongResponse) sampleGGRequest () () pongResponse rfl rfl rfl).1

/-! ### Association-list lemmas shared by the header claims -/

lemma lookupAssoc_setAssoc_self {α : Type} (m : List (String × α)) (k : String) (v : α) :
    lookupAssoc (setAssoc m k v) k = some v := by
  induction m with
  | nil => simp [setAssoc, lookupAssoc]
  | cons p rest ih =>
      obtain ⟨k0, v0⟩ := p
      by_cases h : k0 = k
      · simp [setAssoc, h, lookupAssoc]
      · simp [setAssoc, h, lookupAssoc, ih]

lemma lookupAssoc_setAssoc_ne {α : Type} (m : List (String × α)) (k k2 : String)
    (v : α) (h : k2 ≠ k) :
    lookupAssoc (setAssoc m k v) k2 = lookupAssoc m k2 := by
  induction m with
  | nil => simp [setAssoc, lookupAssoc, Ne.symm h]
  | cons p rest ih =>
      obtain ⟨k0, v0⟩ := p
      by_cases h0 : k0 = k
      · subst h0
        simp [setAssoc, lookupAssoc, Ne.symm h]
      · simp [setAssoc, h0, lookupAssoc, ih]

/-! ### C1: malformed JSON body -/

/-- C1 (code evidence): on a request whose body fails JSON decoding, the
data-processing middleware does return a nil envelope with a 400 pipeline
error carrying the decoder's message, and the core handler is not run (two
different cores give the identical result); but the dispatcher then panics
on the nil envelope in its header-application loop instead of writing the
400 response. -/
theorem badBody_serveHTTP_panics :
    getDataProcessingMiddleware none pingCodec allKnownDecoder
        (constHandler pongResponse : Handler Unit Unit Unit String String)
        badBodyGGRequest =
      .ok (none, some (.middlewareProcessingError "invalid body" 400)) ∧
    getDataProcessingMiddleware none pingCodec allKnownDecoder
        ((fun _ => .ok (some emptyGGResponse, none)) :
          Handler Unit Unit Unit String String)
        badBodyGGRequest =
      .ok (none, some (.middlewareProcessingError "invalid body" 400)) ∧
    serveHTTP
        ({ serviceProvider := none
           handlerFunc := constHandler pongResponse
           middlewares := [getDataProcessingMiddleware none pingCodec allKnownDecoder] } :
          Uitzicht Unit Unit Unit String String)
        badBodyRequest =
      .panicked nilDereferenceMessage := by
  exact ⟨rfl, rfl, rfl⟩

/-! ### C6: unknown query keys -/

/-- C6 counterexample: when NO settings object is supplied, an unrecognized
query key DOES produce a 400 pipeline error (the schema decoder keeps its
default, which rejects unknown keys), while the same request with an
explicit settings object carrying `forbidUnknownKeys = false` decodes
successfully; the claim that nil settings behaves like `false` is wrong. -/
theorem dataProcessingMiddleware_nil_settings_counterexample :
    getDataProcessingMiddleware none pingCodec msgOnlyDecoder
        (constHandler pongResponse : Handler Unit Unit Unit String String)
        unknownKeyGGRequest =
      .ok (some emptyGGResponse,
           some (.middlewareProcessingError unknownKeyErrorMessage 400)) ∧
    getDataProcessingMiddleware (some { forbidUnknownKeysInGetParams := false })
        pingCodec msgOnlyDecoder
        (constHandler pongResponse : Handler Unit Unit Unit String String)
        unknownKeyGGRequest =
      .ok (some { pongResponse with
                    serializedResponse := "pong"
                    headers := some [("content-type", ["application/json"])] },
           none) := by
  exact ⟨rfl, rfl⟩

/-- C6 (amended): when a settings object with `forbidUnknownKeys = true` is
supplied, a query containing any unrecognized key yields a 400 pipeline
error and the core handler is never run (the result is the same for every
core handler); when a settings object with `forbidUnknownKeys = false` is
supplied, the decoder ignores unknown keys: decoding never fails because of
them and proceeds on the recognized keys.  (When no settings object is
supplied the decoder default REJECTS unknown keys.) -/
theorem dataProcessingMiddleware_unknown_keys {σ β γ ρ ε : Type}
    (codec : JsonCodec β ρ ε) (d : SchemaDecoder γ)
    (hFunc : Handler σ β γ ρ ε) (ggreq : GGRequest σ β γ) (rb : β)
    (hdec : (if ggreq.request.hasBody = true then codec.decodeBody ggreq.request.body
             else Except.ok codec.zeroReqBody) = Except.ok rb)
    (hunk : ggreq.request.query.any (fun p => !d.knownKey p.1) = true) :
    (getDataProcessingMiddleware (some { forbidUnknownKeysInGetParams := true })
        codec d hFunc ggreq =
      .ok (some emptyGGResponse,
           some (.middlewareProcessingError unknownKeyErrorMessage 400))) ∧
    (∀ hFunc2 : Handler σ β γ ρ ε,
      getDataProcessingMiddleware (some { forbidUnknownKeysInGetParams := true })
          codec d hFunc2 ggreq =
        getDataProcessingMiddleware (some { forbidUnknownKeysInGetParams := true })
          codec d hFunc ggreq) ∧
    (∀ q : List (String × List String),
      schemaDecode d (effectiveIgnoreUnknownKeys
          (some { forbidUnknownKeysInGetParams := false })) q =
        d.decodeKnown (q.filter (fun p => d.knownKey p.1))) := by
  have h1 : ∀ h : Handler σ β γ ρ ε,
      getDataProcessingMiddleware (some { forbidUnknownKeysInGetParams := true })
          codec d h ggreq =
        .ok (some emptyGGResponse,
             some (.middlewareProcessingError unknownKeyErrorMessage 400)) := by
    intro h
    simp [getDataProcessingMiddleware, hdec, effectiveIgnoreUnknownKeys,
      schemaDecode, hunk]
  refine ⟨h1 hFunc, fun h2 => (h1 h2).trans (h1 hFunc).symm, ?_⟩
  intro q
  simp [schemaDecode, effectiveIgnoreUnknownKeys]

/-- Witness for C6 (amended): a query carrying only the unrecognized key
`"bogus"` under `forbidUnknownKeys = true` gives the 400 pipeline error. -/
theorem dataProcessingMiddleware_unknown_keys_witness :
    ((if unknownKeyGGRequest.request.hasBody = true
      then pingCodec.decodeBody unknownKeyGGRequest.request.body
      else Except.ok pingCodec.zeroReqBody) = Except.ok ()) ∧
    (unknownKeyGGRequest.request.query.any
      (fun p => !msgOnlyDecoder.knownKey p.1) = true) ∧
    getDataProcessingMiddleware (some { forbidUnknownKeysInGetParams := true })
        pingCodec msgOnlyDecoder
        (constHandler pongResponse : Handler Unit Unit Unit String String)
        unknownKeyGGRequest =
      .ok (some emptyGGResponse,
           some (.middlewareProcessingError unknownKeyErrorMessage 400)) := by
  refine ⟨rfl, rfl, ?_⟩
  exact (dataProcessingMiddleware_unknown_keys pingCodec msgOnlyDecoder
    (constHandler pongResponse) unknownKeyGGRequest () rfl rfl).1

/-! ### C7 and C10: the request-identity middleware -/

/-- C7: the request-identity middleware stores exactly one `X-Request-Id`
entry in the envelope headers whether the inner handler returned success or
an error (any non-nil envelope), using the first value of the incoming
`X-Request-Id` header verbatim when one is present and the freshly
generated identifier otherwise. -/
theorem requestIDMiddleware_sets_header {σ β γ ρ ε : Type} (freshID rid : String)
    (rest : List String) (hFunc : Handler σ β γ ρ ε) (ggreq : GGRequest σ β γ)
    (resp : GGResponse ρ ε) (err : Option GoError)
    (hrid : lookupAssoc ggreq.request.headers "X-Request-Id" = some (rid :: rest) ∨
            (lookupAssoc ggreq.request.headers "X-Request-Id" = none ∧ rid = freshID))
    (hinner : hFunc (withRequestID ggreq rid) = .ok (some resp, err)) :
    requestIDMiddleware freshID hFunc ggreq =
      .ok (some { resp with
                    headers := some (setAssoc (resp.headers.getD [])
                      "X-Request-Id" [rid]) }, err) ∧
    lookupAssoc (setAssoc (resp.headers.getD []) "X-Request-Id" [rid])
        "X-Request-Id" = some [rid] := by
  constructor
  · rcases hrid with h | ⟨h, hfr⟩
    · simp [requestIDMiddleware, h, hinner]
    · subst hfr
      simp [requestIDMiddleware, h, hinner]
  · exact lookupAssoc_setAssoc_self _ _ _

/-- Witness for C7: an incoming header `X-Request-Id: abc` is reused
verbatim as the envelope header entry on a successful inner handler. -/
theorem requestIDMiddleware_sets_header_witness :
    (lookupAssoc ridGGRequest.request.headers "X-Request-Id" = some ["abc"]) ∧
    ((constHandler pongResponse : Handler Unit Unit Unit String String)
        (withRequestID ridGGRequest "abc") = .ok (some pongResponse, none)) ∧
    requestIDMiddleware "fresh-uuid"
        (constHandler pongResponse : Handler Unit Unit Unit String String)
        ridGGRequest =
      .ok (some { pongResponse with
                    headers := some [("X-Request-Id", ["abc"])] }, none) ∧
    lookupAssoc [("X-Request-Id", ["abc"])] "X-Request-Id" = some ["abc"] := by
  have h := requestIDMiddleware_sets_header "fresh-uuid" "abc" []
    (constHandler pongResponse : Handler Unit Unit Unit String String)
    ridGGRequest pongResponse none (Or.inl rfl) rfl
  exact ⟨rfl, rfl, h.1, h.2⟩

/-- C10: the request-identity middleware is not total on its error branch:
whenever the inner handler returns a nil envelope together with an error
(as the data-processing middleware does when body decoding fails), the
middleware dereferences the nil envelope while attaching the `X-Request-Id`
header and panics instead of returning a response. -/
theorem requestIDMiddleware_nil_envelope {σ β γ ρ ε : Type} (freshID : String)
    (inner : Handler σ β γ ρ ε) (ggreq : GGRequest σ β γ) (e : GoError)
    (hlook : lookupAssoc ggreq.request.headers "X-Request-Id" = none)
    (hinner : inner (withRequestID ggreq freshID) = .ok (none, some e)) :
    requestIDMiddleware freshID inner ggreq = .panicked nilDereferenceMessage := by
  simp [requestIDMiddleware, hlook, hinner]

/-- Witness for C10: the inner handler is the data-processing middleware on
a request with an undecodable body; the request-identity middleware panics
with the nil-pointer dereference. -/
theorem requestIDMiddleware_nil_envelope_witness :
    (lookupAssoc badBodyGGRequest.request.headers "X-Request-Id" = none) ∧
    ((getDataProcessingMiddleware none pingCodec allKnownDecoder
        (constHandler pongResponse) : Handler Unit Unit Unit String String)
        (withRequestID badBodyGGRequest "fresh-uuid") =
      .ok (none, some (.middlewareProcessingError "invalid body" 400))) ∧
    requestIDMiddleware "fresh-uuid"
        (getDataProcessingMiddleware none pingCodec allKnownDecoder
          (constHandler pongResponse) : Handler Unit Unit Unit String String)
        badBodyGGRequest =
      .panicked nilDereferenceMessage := by
  refine ⟨rfl, rfl, ?_⟩
  exact requestIDMiddleware_nil_envelope "fresh-uuid"
    (getDataProcessingMiddleware none pingCodec allKnownDecoder
      (constHandler pongResponse))
    badBodyGGRequest (.middlewareProcessingError "invalid body" 400) rfl rfl

/-! ### C8: applying the envelope headers to the response writer -/

lemma headerWriteEvents_cons (p : String × List String)
    (rest : List (String × List String)) :
    headerWriteEvents (p :: rest) =
      p.2.map (fun v => WriteEvent.setHeader p.1 v) ++ headerWriteEvents rest := by
  simp [headerWriteEvents]

lemma foldl_setHeader_block_self (n : String) :
    ∀ (vs : List String) (m : List (String × String)), vs ≠ [] →
      lookupAssoc (List.foldl applySetEvent m
        (vs.map (fun v => WriteEvent.setHeader n v))) n = vs.getLast? := by
  intro vs
  induction vs with
  | nil => intro m h; exact absurd rfl h
  | cons v rest ih =>
      intro m _
      cases rest with
      | nil => simp [applySetEvent, lookupAssoc_setAssoc_self]
      | cons w t =>
          have h := ih (setAssoc m n v) (List.cons_ne_nil w t)
          simpa [applySetEvent, List.getLast?_cons_cons] using h

lemma foldl_setHeader_block_ne (n k : String) (h : k ≠ n) :
    ∀ (vs : List String) (m : List (String × String)),
      lookupAssoc (List.foldl applySetEvent m
        (vs.map (fun v => WriteEvent.setHeader n v))) k = lookupAssoc m k := by
  intro vs
  induction vs with
  | nil => intro m; rfl
  | cons v rest ih =>
      intro m
      have h1 := ih (setAssoc m n v)
      have h2 := lookupAssoc_setAssoc_ne m n k v h
      simpa [applySetEvent] using h1.trans h2

lemma foldl_headerEvents_keys_ne (k : String) :
    ∀ (hs : List (String × List String)) (m : List (String × String)),
      (∀ p ∈ hs, p.1 ≠ k) →
      lookupAssoc (List.foldl applySetEvent m (headerWriteEvents hs)) k =
        lookupAssoc m k := by
  intro hs
  induction hs with
  | nil => intro m _; rfl
  | cons p rest ih =>
      intro m hk
      rw [headerWriteEvents_cons, List.foldl_append]
      rw [ih _ (fun q hq => hk q (List.mem_cons_of_mem p hq))]
      exact foldl_setHeader_block_ne p.1 k
        (Ne.symm (hk p (List.mem_cons_self p rest))) p.2 m

lemma foldl_headerEvents_last :
    ∀ (hs : List (String × List String)) (m : List (String × String))
      (name : String) (vals : List String),
      (hs.map Prod.fst).Nodup → (name, vals) ∈ hs → vals ≠ [] →
      lookupAssoc (List.foldl applySetEvent m (headerWriteEvents hs)) name =
        vals.getLast? := by
  intro hs
  induction hs with
  | nil => intro m name vals _ hmem _; cases hmem
  | cons p rest ih =>
      intro m name vals hnodup hmem hne
      have hcons : (p.1 ∉ rest.map Prod.fst) ∧ (rest.map Prod.fst).Nodup :=
        List.nodup_cons.mp (by simpa using hnodup)
      rw [headerWriteEvents_cons, List.foldl_append]
      rcases List.mem_cons.mp hmem with heq | hmem2
      · obtain rfl := heq.symm
        have hnotin : ∀ q ∈ rest, q.1 ≠ name := by
          intro q hq hq1
          have hmm : q.1 ∈ rest.map Prod.fst := List.mem_map_of_mem Prod.fst hq
          rw [hq1] at hmm
          exact hcons.1 hmm
        rw [foldl_headerEvents_keys_ne name rest _ hnotin]
        exact foldl_setHeader_block_self name vals m hne
      · exact ih _ name vals hcons.2 hmem2 hne

/-- C8 counterexample: an envelope holding the two values `v1`, `v2` under
the single header name `Accept` is applied with `Set` (replace) semantics,
so the written response retains only `v2`; the claim that every value in
the sequence appears on the written response is false. -/
theorem serveHTTP_header_set_counterexample :
    serveHTTP (soloUitzicht none (constHandler dupHeaderResponse :
        Handler Unit Unit Unit String String)) sampleRequest =
      .ok [WriteEvent.setHeader "Accept" "v1", WriteEvent.setHeader "Accept" "v2",
           WriteEvent.writeHeader 200, WriteEvent.writeBody "b"] ∧
    finalHeaders [WriteEvent.setHeader "Accept" "v1",
        WriteEvent.setHeader "Accept" "v2",
        WriteEvent.writeHeader 200, WriteEvent.writeBody "b"] = [("Accept", "v2")] ∧
    ("Accept", "v1") ∉ finalHeaders [WriteEvent.setHeader "Accept" "v1",
        WriteEvent.setHeader "Accept" "v2",
        WriteEvent.writeHeader 200, WriteEvent.writeBody "b"] := by
  exact ⟨rfl, rfl, by decide⟩

/-- C8 (amended): the dispatcher applies every accumulated header value in
order with replace (`Set`) semantics — so for each header name the written
response carries exactly the LAST value of that name's ordered sequence —
and all header applications happen before the status line is written, which
happens before the body is written. -/
theorem serveHTTP_headers_apply {σ β γ ρ ε : Type} (sp : Option σ)
    (resp : GGResponse ρ ε) (r : HttpRequest) (name : String) (vals : List String)
    (hnodup : ((resp.headers.getD []).map Prod.fst).Nodup)
    (hmem : (name, vals) ∈ resp.headers.getD [])
    (hne : vals ≠ []) :
    ∃ evs : List WriteEvent,
      serveHTTP (soloUitzicht sp (constHandler resp : Handler σ β γ ρ ε)) r =
        .ok evs ∧
      lookupAssoc (finalHeaders evs) name = vals.getLast? ∧
      ∃ pre status body,
        evs = pre ++ [WriteEvent.writeHeader status, WriteEvent.writeBody body] ∧
        ∀ ev ∈ pre, ∃ n v, ev = WriteEvent.setHeader n v := by
  refine ⟨headerWriteEvents (resp.headers.getD []) ++
      [WriteEvent.writeHeader
        (if resp.errorOccured then
          (if resp.statusCode = 0 then 500 else resp.statusCode) else 200),
       WriteEvent.writeBody resp.serializedResponse], rfl, ?_, ?_⟩
  · have hfh : finalHeaders (headerWriteEvents (resp.headers.getD []) ++
        [WriteEvent.writeHeader
          (if resp.errorOccured then
            (if resp.statusCode = 0 then 500 else resp.statusCode) else 200),
         WriteEvent.writeBody resp.serializedResponse]) =
        List.foldl applySetEvent [] (headerWriteEvents (resp.headers.getD [])) := by
      simp [finalHeaders, List.foldl_append, applySetEvent]
    rw [hfh]
    exact foldl_headerEvents_last (resp.headers.getD []) [] name vals hnodup hmem hne
  · refine ⟨headerWriteEvents (resp.headers.getD []), _, _, rfl, ?_⟩
    intro ev hev
    simp only [headerWriteEvents, List.mem_flatMap, List.mem_map] at hev
    obtain ⟨p, _, v, _, rfl⟩ := hev
    exact ⟨p.1, v, rfl⟩

/-- Witness for C8 (amended): the `Accept: [v1, v2]` envelope yields a
written response whose `Accept` header is the last value `v2`, with headers
applied before the status line and body. -/
theorem serveHTTP_headers_apply_witness :
    ((dupHeaderResponse.headers.getD []).map Prod.fst).Nodup ∧
    ("Accept", ["v1", "v2"]) ∈ dupHeaderResponse.headers.getD [] ∧
    (["v1", "v2"] : List String) ≠ [] ∧
    (∃ evs : List WriteEvent,
      serveHTTP (soloUitzicht none (constHandler dupHeaderResponse :
          Handler Unit Unit Unit String String)) sampleRequest = .ok evs ∧
      lookupAssoc (finalHeaders evs) "Accept" =
        (["v1", "v2"] : List String).getLast? ∧
      ∃ pre status body,
        evs = pre ++ [WriteEvent.writeHeader status, WriteEvent.writeBody body] ∧
        ∀ ev ∈ pre, ∃ n v, ev = WriteEvent.setHeader n v) := by
  refine ⟨by decide, by decide, by decide, ?_⟩
  exact serveHTTP_headers_apply none dupHeaderResponse sampleRequest "Accept"
    ["v1", "v2"] (by decide) (by decide) (by decide)
